import Mathlib

/-!
Shallow embedding of the `scheduled_modules` repository, covering:

* `src/modules/career_watch/lib/db.py` — the SQLite dedup store (`filter_new`);
* `src/modules/career_watch/lib/engine.py` — the `run_once` orchestrator;
* `src/modules/career_watch/lib/render.py` — HTML rendering helpers;
* `src/service/scheduler.py` — `_build_trigger`, the trigger compiler.

Machine-level aspects that the claims do not touch (wall-clock timing
fields `durations_us`, thread interleaving, the SQLite file format) are
modelled by explicit state passing: the postings table is the list of its
unique-index keys, and scraper execution is an explicit oracle function so
that "a scraper raised" is an `Except.error` value. The thread pool fan-out
of `run_once` is modelled by the sequential schedule (one kind after the
other, in grouping order); every claim proved below is insensitive to the
completion order of the per-kind futures.
-/

namespace CareerWatch

/-- The whitespace set stripped by Python's `str.strip()` (ASCII part:
space, tab, newline, carriage return, vertical tab, form feed). -/
def pySpace (c : Char) : Bool :=
  c = ' ' || c = '\t' || c = '\n' || c = '\r' || c = '\x0b' || c = '\x0c'

/-- Strip leading whitespace (the left half of `str.strip()`). -/
def stripL (l : List Char) : List Char := l.dropWhile pySpace

/-- Strip trailing whitespace (the right half of `str.strip()`). -/
def stripR (l : List Char) : List Char := (l.reverse.dropWhile pySpace).reverse

/-- `str.strip()` on the character list: drop leading and trailing whitespace. -/
def pyStripList (l : List Char) : List Char := stripR (stripL l)

/-- Python `str.strip()` (ASCII whitespace; the claims use no exotic Unicode). -/
def pyStrip (s : String) : String := String.mk (pyStripList s.toList)

/-- `models.Posting`: a single job posting as returned by scrapers (pre-dedupe). -/
structure Posting where
  source : String
  person_env : String
  title : String
  url : String
deriving DecidableEq, Repr

/-- A row of the `postings` table as seen by the unique index
`ux_postings_dedupe` on `(source, person, title, url)`. The `first_seen_utc`
column plays no role in dedup and is not modelled. -/
abbrev Key := String × String × String × String

/-- The dedupe key computed inside `filter_new`'s loop:
`(p.source.strip(), person_env.strip(), p.title.strip(), p.url.strip())`. -/
def pyKey (person : String) (p : Posting) : Key :=
  (pyStrip p.source, pyStrip person, pyStrip p.title, pyStrip p.url)

/-- The normalized copy built when `p.person_env != person_norm`:
`Posting(source=source, person_env=person_norm, title=title, url=url)`
with all four components trimmed. -/
def normPosting (person : String) (p : Posting) : Posting :=
  { source := pyStrip p.source
    person_env := pyStrip person
    title := pyStrip p.title
    url := pyStrip p.url }

/-- The element appended to `new_items` when a row was inserted: the
normalized copy if the posting's `person_env` differs from the run's
normalized person, else the original posting object. -/
def emit (person : String) (p : Posting) : Posting :=
  if p.person_env ≠ pyStrip person then normPosting person p else p

/-- The loop of `db.filter_new`: walk the postings, `INSERT OR IGNORE` each
key, and collect an output item exactly when the insert was not a no-op
(`cur.rowcount == 1`). The store is the list of keys present in the
`postings` table; an insert appends the key. -/
def filterNewGo (person : String) : List Key → List Posting → List Posting × List Key
  | st, [] => ([], st)
  | st, p :: ps =>
      let k := pyKey person p
      if k ∈ st then filterNewGo person st ps
      else
        let r := filterNewGo person (st ++ [k]) ps
        (emit person p :: r.1, r.2)

/-- `db.filter_new(sqlite_path, person_env, postings)`: returns the list of
NEW postings and the updated table (one transaction; the claims are about
the committed outcome). -/
def filterNew (store : List Key) (person : String) (postings : List Posting) :
    List Posting × List Key :=
  filterNewGo person store postings

/-- `config.ScraperConfig` (`kind`, `source`); the `params` dict is carried
through to the scraper untouched by the engine and is not modelled. -/
structure ScraperConfig where
  kind : String
  source : String
deriving DecidableEq, Repr

/-- `models.ScrapeResult`: result bundle produced by one scraper kind. -/
structure ScrapeResult where
  source : String
  items : List Posting
  errors : List String
deriving DecidableEq, Repr

/-- `config.Settings` as consumed by `engine.run_once`. `sqlite_path` is
replaced by the explicit store argument of `runOnce`; `max_threads` only
bounds the thread-pool width and is immaterial to the sequential model. -/
structure Settings where
  person_env : String
  selected : List ScraperConfig
  skip_network : Bool
  email_all_even_if_seen : Bool
  ingest_only_no_email : Bool
deriving DecidableEq, Repr

/-- Python `dict.setdefault(k, []).append(v)` on an insertion-ordered dict,
modelled as an association list. -/
def dictAppend {α : Type} (m : List (String × List α)) (k : String) (v : α) :
    List (String × List α) :=
  if m.any (fun kv => kv.1 = k) then
    m.map (fun kv => if kv.1 = k then (kv.1, kv.2 ++ [v]) else kv)
  else m ++ [(k, [v])]

/-- Python `dict.setdefault(k, []).extend(vs)` on an insertion-ordered dict. -/
def dictExtend {α : Type} (m : List (String × List α)) (k : String) (vs : List α) :
    List (String × List α) :=
  if m.any (fun kv => kv.1 = k) then
    m.map (fun kv => if kv.1 = k then (kv.1, kv.2 ++ vs) else kv)
  else m ++ [(k, vs)]

/-- `Settings.group_by_kind`: partition the selected scrapers by `kind`. -/
def groupByKind (l : List ScraperConfig) : List (String × List ScraperConfig) :=
  l.foldl (fun m sc => dictAppend m sc.kind sc) []

/-- The scraper-execution oracle standing for
`get_scraper_func(kind)().run(person_env, specs, skip_network)` — class
resolution in the registry, instantiation and the run call together.
`Except.error e` models an exception whose `repr` is `e`. -/
abbrev Oracle := String → List ScraperConfig → Except String (List ScrapeResult)

/-- `_run_kind`: short-circuit to an empty result when `skip_network` is
set (before any registry lookup), else resolve and run the scraper. -/
def runKind (s : Settings) (f : Oracle) (kind : String) (specs : List ScraperConfig) :
    Except String (List ScrapeResult) :=
  if s.skip_network then .ok [] else f kind specs

/-- One step of the executor loop of `run_once`: extend the gathered
results on success; on an exception, log `(kind, repr e)` and let that
kind contribute no results. -/
def kindStep (s : Settings) (f : Oracle)
    (acc : List ScrapeResult × List (String × String))
    (kv : String × List ScraperConfig) :
    List ScrapeResult × List (String × String) :=
  match runKind s f kv.1 kv.2 with
  | .ok rs => (acc.1 ++ rs, acc.2)
  | .error e => (acc.1, acc.2 ++ [(kv.1, e)])

/-- The executor loop of `run_once` over all kinds. -/
def collectKinds (s : Settings) (f : Oracle) :
    List ScrapeResult × List (String × String) :=
  (groupByKind s.selected).foldl (kindStep s f) ([], [])

/-- The merged `all_postings` list (pre-dedupe). -/
def allItems (results : List ScrapeResult) : List Posting :=
  results.foldl (fun acc r => acc ++ r.items) []

/-- The merged `pre_by_source` mapping, keyed by `ScrapeResult.source`. -/
def preBySource (results : List ScrapeResult) : List (String × List Posting) :=
  results.foldl (fun m r => dictExtend m r.source r.items) []

/-- The `new_by_source` grouping of the postings reported new by the store. -/
def newBySourceOf (newPostings : List Posting) : List (String × List Posting) :=
  newPostings.foldl (fun m p => dictAppend m p.source p) []

/-- The apostrophe character (written by code point to keep source plain). -/
def apos : Char := Char.ofNat 39

/-- `html.escape` with `quote=True`, one character at a time (`&` handled
first in CPython; per-character translation is equivalent). -/
def escChar (c : Char) : String :=
  if c = '&' then "&amp;"
  else if c = '<' then "&lt;"
  else if c = '>' then "&gt;"
  else if c = '"' then "&quot;"
  else if c = apos then "&#x27;"
  else String.singleton c

/-- `utils.esc` on a non-None string. -/
def escHtml (s : String) : String := String.join (s.toList.map escChar)

/-- One `<tr>` row of `render.build_tables` (`p.title or "(no title)"`,
`p.url or ""` — for strings both reduce to the empty-string test). -/
def rowHtml (p : Posting) : String :=
  let title := if p.title = "" then "(no title)" else p.title
  let eu := escHtml p.url
  let et := escHtml title
  s!"<tr><td>{et}</td><td><a href=\"{eu}\">{eu}</a></td></tr>"

/-- Python `sorted(d.items())`: ascending by key (dict keys are distinct,
so the tuple comparison never reaches the values). -/
def sortByKey {α : Type} (m : List (String × α)) : List (String × α) :=
  List.insertionSort (fun a b => a.1 ≤ b.1) m

/-- One `<h3>` section of `render.build_tables`. -/
def sectionHtml (kv : String × List Posting) : String :=
  let rows := String.join (kv.2.map rowHtml)
  let tbl := "<table border=\x271\x27 cellspacing=\x270\x27 cellpadding=\x276\x27>"
      ++ "<tr><th>Title</th><th>Link</th></tr>" ++ rows ++ "</table>"
  let eh := escHtml kv.1
  s!"<h3>{eh}</h3>\n{tbl}"

/-- `render.build_tables`. -/
def buildTables (bySource : List (String × List Posting)) : String :=
  String.intercalate "\n" ((sortByKey bySource).map sectionHtml)

/-- `render.wrap_document` (heading and intro are included when truthy,
i.e. nonempty). -/
def wrapDocument (content heading intro : String) : String :=
  let parts := ["<div>"]
      ++ (if heading ≠ "" then
            let eh := escHtml heading
            [s!"<h2>{eh}</h2>"]
          else [])
      ++ (if intro ≠ "" then
            let ei := escHtml intro
            [s!"<p>{ei}</p>"]
          else [])
      ++ [content, "</div>"]
  String.intercalate "\n" parts

/-- `engine._summary_message`. -/
def summaryMessage (bySource : List (String × List Posting)) (person label : String) :
    String :=
  let total := (bySource.map (fun kv => kv.2.length)).sum
  let numSources := (bySource.filter (fun kv => ¬ kv.2.isEmpty)).length
  s!"{total} {label} across {numSources} sources for {person}"

/-- The subject-line block of `run_once`; `sources_with_jobs` comes from
`new_by_source` in both render branches. -/
def subjectLine (newBySource : List (String × List Posting)) (newTotal : Nat) : String :=
  let srcs := (newBySource.filter (fun kv => ¬ kv.2.isEmpty)).map (fun kv => kv.1)
  match srcs with
  | [src] => s!"Career Watch — {newTotal} new at {src}"
  | _ =>
      let n := srcs.length
      s!"Career Watch — {newTotal} new jobs ({n} companies)"

/-- The `meta_dict` returned by `run_once` (the `durations_us` timing map is
wall-clock data and is not modelled). -/
structure Meta where
  message : String
  person : String
  new_total : Nat
  by_source : List (String × Nat)
  subject : String
  email_all_even_if_seen : Bool
  ingest_only_no_email : Bool
deriving DecidableEq, Repr

/-- The observable outcome of one `run_once` call: the optional
`(html, meta)` pair, the updated postings table, and the `(kind, error)`
pairs logged at the orchestration boundary. -/
structure RunOutcome where
  email : Option (String × Meta)
  store : List Key
  errors : List (String × String)
deriving DecidableEq, Repr

/-- The render-and-meta tail of `run_once` shared by both email branches. -/
def finishRender (s : Settings) (toRender newBy : List (String × List Posting))
    (msg : String) : String × Meta :=
  let newTotal := (newBy.map (fun kv => kv.2.length)).sum
  let subject := subjectLine newBy newTotal
  let tablesHtml := buildTables toRender
  let person := s.person_env
  let heading := s!"Career Watch — {person}"
  let html := wrapDocument tablesHtml heading msg
  let bySourceCounts := toRender.map (fun kv => (kv.1, kv.2.length))
  (html,
    { message := msg
      person := s.person_env
      new_total := newTotal
      by_source := bySourceCounts
      subject := subject
      email_all_even_if_seen := s.email_all_even_if_seen
      ingest_only_no_email := s.ingest_only_no_email })

/-- The merge/dedupe/decide tail of `run_once`, as a function of the
gathered scrape results and error logs. -/
def runOnceCore (s : Settings) (results : List ScrapeResult)
    (errLogs : List (String × String)) (store : List Key) : RunOutcome :=
  let allPs := allItems results
  let pre := preBySource results
  let fn := filterNew store s.person_env allPs
  let newPostings := fn.1
  let store1 := fn.2
  let newBy := newBySourceOf newPostings
  if s.ingest_only_no_email then
    { email := none, store := store1, errors := errLogs }
  else if s.email_all_even_if_seen then
    let msg := summaryMessage pre s.person_env "all postings"
    { email := some (finishRender s pre newBy msg), store := store1, errors := errLogs }
  else if newBy.isEmpty then
    { email := none, store := store1, errors := errLogs }
  else
    let msg := summaryMessage newBy s.person_env "new postings"
    { email := some (finishRender s newBy newBy msg), store := store1, errors := errLogs }

/-- `engine.run_once`: scrape per kind, merge, dedupe through the store,
then decide between no-email, render-everything and render-new. -/
def runOnce (s : Settings) (f : Oracle) (store : List Key) : RunOutcome :=
  runOnceCore s (collectKinds s f).1 (collectKinds s f).2 store

/-- Replace every erroring kind of an oracle by an empty (but successful)
result — the reference behavior for "a bad kind contributes zero results". -/
def errToEmpty (f : Oracle) : Oracle := fun k specs =>
  match f k specs with
  | .error _ => .ok []
  | r => r

end CareerWatch

namespace Sched

open CareerWatch (pySpace pyStrip pyStripList)

/-- A cron field value in the dict form of a cron trigger (int or string). -/
inductive CronVal
  | int (n : Int)
  | str (s : String)
deriving DecidableEq, Repr

/-- `date.run_at` payload: epoch seconds or an ISO string (datetime objects
and float timestamps are not modelled; no claim touches the date branch). -/
inductive DateVal
  | epoch (n : Int)
  | iso (s : String)
deriving DecidableEq, Repr

/-- A `CronTrigger` with fixed numeric `second`/`minute`/`hour` fields, as
produced by the `daily_time` branch. -/
structure CronRule where
  second : Nat
  minute : Nat
  hour : Nat
  day_of_week : Option String
  timezone : Option String
deriving DecidableEq, Repr

/-- The APScheduler trigger value produced by `_build_trigger`. `orElse`
is `OrTrigger` over the per-time cron rules (the only `OrTrigger` the
source ever constructs). -/
inductive Trigger
  | cron (r : CronRule)
  | orElse (rs : List CronRule)
  | interval (weeks days hours minutes seconds jitter : Int)
      (timezone : Option String) (start_date end_date : Option String)
  | cronStr (s : String) (timezone : Option String)
  | cronFields (second minute hour : CronVal)
      (day day_of_week month : Option CronVal)
      (start_date end_date : Option String) (jitter : Option Int)
      (timezone : Option String)
  | dateT (runAt : DateVal) (timezone : Option String)
deriving DecidableEq, Repr

/-- `daily_time.time`: a single string or a list of strings (the source
also applies `str()` to each entry; non-string entries are not modelled). -/
inductive TimeField
  | one (s : String)
  | many (ss : List String)
deriving DecidableEq, Repr

/-- The entry list after the `isinstance(times, str)` normalization. -/
def TimeField.toList : TimeField → List String
  | .one s => [s]
  | .many ss => ss

/-- The `daily_time` object; `extraKeys` holds any keys outside
`{time, day_of_week, timezone}`. -/
structure DailyTimeSpec where
  time : Option TimeField := none
  day_of_week : Option String := none
  timezone : Option String := none
  extraKeys : List String := []
deriving DecidableEq, Repr

/-- The `interval` object; numeric fields are modelled as integers (the
`int()` conversion path cannot fail on them), `extraKeys` holds any keys
outside the allowed set. -/
structure IntervalSpec where
  weeks : Option Int := none
  days : Option Int := none
  hours : Option Int := none
  minutes : Option Int := none
  seconds : Option Int := none
  jitter : Option Int := none
  timezone : Option String := none
  start_date : Option String := none
  end_date : Option String := none
  extraKeys : List String := []
deriving DecidableEq, Repr

/-- The dict form of a cron trigger. -/
structure CronDictSpec where
  second : Option CronVal := none
  minute : Option CronVal := none
  hour : Option CronVal := none
  day : Option CronVal := none
  day_of_week : Option CronVal := none
  month : Option CronVal := none
  timezone : Option String := none
  start_date : Option String := none
  end_date : Option String := none
  jitter : Option Int := none
  extraKeys : List String := []
deriving DecidableEq, Repr

/-- A cron trigger spec: crontab string or field object (any other type
raises and is not modelled). -/
inductive CronSpecV
  | str (s : String)
  | dict (d : CronDictSpec)
deriving DecidableEq, Repr

/-- A date trigger spec: `{run_at, timezone}` object or a bare scalar. -/
inductive DateSpecV
  | obj (run_at : Option DateVal) (timezone : Option String)
  | scalar (v : DateVal)
deriving DecidableEq, Repr

/-- A trigger spec dict; a key that is absent, or present with value
`None`, is `none` (the two are indistinguishable to `_build_trigger`'s
presence check). -/
structure TrigDef where
  interval : Option IntervalSpec := none
  cron : Option CronSpecV := none
  date : Option DateSpecV := none
  daily_time : Option DailyTimeSpec := none
deriving DecidableEq, Repr

/-- `_tz(z) or default`: use the block's own timezone when truthy, else the
fallback (`ZoneInfo` name validation is not modelled). -/
def resolveTz (z : Option String) (dflt : Option String) : Option String :=
  match z with
  | some s => if s ≠ "" then some s else dflt
  | none => dflt

/-- Split a character list at every occurrence of characters satisfying
`p`, keeping empty chunks — the semantics of Python `str.split(sep)` for a
one-character separator (and of `String.split`), written structurally so
that it evaluates by kernel reduction. -/
def splitChunks (p : Char → Bool) : List Char → List (List Char)
  | [] => [[]]
  | x :: xs =>
      match splitChunks p xs with
      | [] => [[]]
      | y :: ys => if p x then [] :: y :: ys else (x :: y) :: ys

/-- Python `s.split(sep)` for a single-character separator. -/
def pySplitOn (sep : Char) (s : String) : List String :=
  (splitChunks (fun c => c = sep) s.toList).map String.mk

/-- Decimal value of a digit list. -/
def digitsVal (l : List Char) : Nat :=
  l.foldl (fun acc c => acc * 10 + (c.toNat - 48)) 0

/-- A non-empty all-digit string's value, else `none`. -/
def decimalNat? (s : String) : Option Nat :=
  if s.toList ≠ [] ∧ s.toList.all Char.isDigit then some (digitsVal s.toList) else none

/-- Python `int(...)` on a string: strip, optional sign, digits
(underscore digit separators are not modelled). -/
def pyInt? (s : String) : Option Int :=
  match pyStripList s.toList with
  | [] => none
  | c :: rest =>
      if c = '-' then
        if rest ≠ [] ∧ rest.all Char.isDigit then some (-(digitsVal rest : Int)) else none
      else if c = '+' then
        if rest ≠ [] ∧ rest.all Char.isDigit then some ((digitsVal rest : Int)) else none
      else if (c :: rest).all Char.isDigit then some ((digitsVal (c :: rest) : Int))
      else none

/-- `datetime.time(hh, mm, ss)` range validation. -/
def timeOk (hh mm ss : Int) : Option (Nat × Nat × Nat) :=
  if 0 ≤ hh ∧ hh ≤ 23 ∧ 0 ≤ mm ∧ mm ≤ 59 ∧ 0 ≤ ss ∧ ss ≤ 59 then
    some (hh.toNat, mm.toNat, ss.toNat)
  else none

/-- `_parse_time`: split on `:`, require 2 or 3 parts, parse integers,
validate ranges; `none` stands for the raised `ValueError`. -/
def parseTimeStr (s : String) : Option (Nat × Nat × Nat) :=
  match pySplitOn ':' s with
  | [h, m] => do
      let hh ← pyInt? h
      let mm ← pyInt? m
      timeOk hh mm 0
  | [h, m, sec] => do
      let hh ← pyInt? h
      let mm ← pyInt? m
      let ss ← pyInt? sec
      timeOk hh mm ss
  | _ => none

/-- Ascending lexicographic order on `(hour, minute, second)` triples, the
order `sorted` uses on Python tuples. -/
def TripLe (a b : Nat × Nat × Nat) : Prop :=
  a.1 < b.1 ∨ (a.1 = b.1 ∧ (a.2.1 < b.2.1 ∨ (a.2.1 = b.2.1 ∧ a.2.2 ≤ b.2.2)))

instance : DecidableRel TripLe := fun a b => by unfold TripLe; exact inferInstance

instance : IsTotal (Nat × Nat × Nat) TripLe :=
  ⟨by rintro ⟨a1, a2, a3⟩ ⟨b1, b2, b3⟩; unfold TripLe; simp only; omega⟩

instance : IsTrans (Nat × Nat × Nat) TripLe :=
  ⟨by rintro ⟨a1, a2, a3⟩ ⟨b1, b2, b3⟩ ⟨c1, c2, c3⟩; unfold TripLe; simp only; omega⟩

/-- `sorted(...)` on distinct triples: the ascending arrangement. -/
def sortTrips (l : List (Nat × Nat × Nat)) : List (Nat × Nat × Nat) :=
  List.insertionSort TripLe l

/-- All-or-nothing traversal: the generator inside `set(...)` raises as
soon as one entry fails to parse. -/
def mapO {α β : Type} (f : α → Option β) : List α → Option (List β)
  | [] => some []
  | a :: as =>
      match f a, mapO f as with
      | some b, some bs => some (b :: bs)
      | _, _ => none

/-- The per-triple `CronTrigger(second=s, minute=m, hour=h, ...)`. -/
def dailyRule (dow tzv : Option String) (t : Nat × Nat × Nat) : CronRule :=
  { second := t.2.2, minute := t.2.1, hour := t.1, day_of_week := dow, timezone := tzv }

/-- The `daily_time` branch of `_build_trigger`: parse every entry,
deduplicate as a set, sort ascending, build one cron rule per triple, and
return the single rule or the OR-combination. The distinct raise messages
of the source are collapsed into one error string each. -/
def buildDailyTime (dt : DailyTimeSpec) (defaultTz : Option String) :
    Except String Trigger :=
  if dt.extraKeys ≠ [] then .error "daily_time has unknown field(s)"
  else
    let tzinfo := resolveTz dt.timezone defaultTz
    match dt.time with
    | none => .error "daily_time requires \x27time\x27"
    | some tf =>
        match mapO parseTimeStr tf.toList with
        | none => .error "invalid daily_time.time entry"
        | some triples =>
            let sortedTimes := sortTrips triples.dedup
            let rules := sortedTimes.map (dailyRule dt.day_of_week tzinfo)
            match rules with
            | [r] => .ok (.cron r)
            | rs => .ok (.orElse rs)

/-- `_as_int_ge0` (the value is already an integer in the model, so only
the sign check remains). -/
def asIntGe0 (v : Option Int) : Except String Int :=
  match v with
  | none => .ok 0
  | some n => if n < 0 then .error "interval field must be >= 0" else .ok n

/-- The `interval` branch of `_build_trigger`. -/
def buildInterval (iv : IntervalSpec) (defaultTz : Option String) :
    Except String Trigger := do
  if iv.extraKeys ≠ [] then throw "interval has unknown field(s)"
  let w ← asIntGe0 iv.weeks
  let d ← asIntGe0 iv.days
  let h ← asIntGe0 iv.hours
  let m ← asIntGe0 iv.minutes
  let sec ← asIntGe0 iv.seconds
  if w + d + h + m + sec = 0 then
    throw "interval must be greater than 0 (provide at least one nonzero time field)"
  let j ← match iv.jitter with
    | none => pure 0
    | some _ => asIntGe0 iv.jitter
  pure (.interval w d h m sec j (resolveTz iv.timezone defaultTz)
    iv.start_date iv.end_date)

/-- Python `str.split()` with no separator: split on whitespace runs,
dropping empty tokens. -/
def pySplitWs (s : String) : List String :=
  ((splitChunks pySpace s.toList).map String.mk).filter (fun t => t ≠ "")

/-- The `cron` branch of `_build_trigger`. For a crontab string, the local
check admits 5 or 6 fields, but `CronTrigger.from_crontab` itself re-splits
and accepts exactly 5, so a 6-field string still raises (inside
APScheduler); field-value parsing inside APScheduler is not modelled. -/
def buildCron (cs : CronSpecV) (defaultTz : Option String) : Except String Trigger :=
  match cs with
  | .str s =>
      let fields := pySplitWs (pyStrip s)
      if fields.length ≠ 5 ∧ fields.length ≠ 6 then
        .error "cron string must have 5 or 6 fields"
      else if fields.length = 5 then .ok (.cronStr s defaultTz)
      else .error "Wrong number of fields; got 6, expected 5"
  | .dict d =>
      if d.extraKeys ≠ [] then .error "cron has unknown field(s)"
      else
        .ok (.cronFields (d.second.getD (.int 0)) (d.minute.getD (.int 0))
          (d.hour.getD (.int 0)) d.day d.day_of_week d.month
          d.start_date d.end_date d.jitter (resolveTz d.timezone defaultTz))

/-- Digit-shape helper for the ISO subset check. -/
def allDigits (s : String) : Bool := s.length > 0 && s.toList.all Char.isDigit

/-- Common `YYYY-MM-DD` subset of `datetime.fromisoformat`. -/
def isoDateOk (s : String) : Bool :=
  match pySplitOn '-' s with
  | [y, m, d] =>
      y.length = 4 && allDigits y && m.length = 2 && allDigits m
        && d.length = 2 && allDigits d
        && (match decimalNat? m, decimalNat? d with
            | some mv, some dv => 1 ≤ mv && mv ≤ 12 && 1 ≤ dv && dv ≤ 31
            | _, _ => false)
  | _ => false

/-- Common `HH:MM[:SS]` subset of `datetime.fromisoformat`'s time part. -/
def isoTimeOk (s : String) : Bool :=
  match pySplitOn ':' s with
  | [h, m] =>
      h.length = 2 && allDigits h && m.length = 2 && allDigits m
        && (match decimalNat? h, decimalNat? m with
            | some hv, some mv => hv ≤ 23 && mv ≤ 59
            | _, _ => false)
  | [h, m, sec] =>
      h.length = 2 && allDigits h && m.length = 2 && allDigits m
        && sec.length = 2 && allDigits sec
        && (match decimalNat? h, decimalNat? m, decimalNat? sec with
            | some hv, some mv, some sv => hv ≤ 23 && mv ≤ 59 && sv ≤ 59
            | _, _, _ => false)
  | _ => false

/-- The common subset of `datetime.fromisoformat` accepted strings
(`YYYY-MM-DD`, optionally followed by `T` or a space and `HH:MM[:SS]`);
fractional seconds and UTC offsets are not modelled — no claim depends on
the date branch. -/
def isoLike (s : String) : Bool :=
  match pySplitOn 'T' s with
  | [d] =>
      match pySplitOn ' ' d with
      | [d0] => isoDateOk d0
      | [d0, t0] => isoDateOk d0 && isoTimeOk t0
      | _ => false
  | [d0, t0] => isoDateOk d0 && isoTimeOk t0
  | _ => false

/-- The `date` branch of `_build_trigger`. -/
def buildDate (ds : DateSpecV) (defaultTz : Option String) : Except String Trigger :=
  let runAt := match ds with | .obj r _ => r | .scalar v => some v
  let tzinfo := match ds with
    | .obj _ z => resolveTz z defaultTz
    | .scalar _ => defaultTz
  match runAt with
  | none => .error "date trigger requires \x27run_at\x27 (or non-empty scalar value)"
  | some (.epoch n) => .ok (.dateT (.epoch n) tzinfo)
  | some (.iso s) =>
      if isoLike s then .ok (.dateT (.iso s) tzinfo)
      else .error "Invalid date.run_at"

/-- `present`: the trigger kinds present with a non-None value, in the
source's probe order. -/
def presentKinds (d : TrigDef) : List String :=
  (if d.interval.isSome then ["interval"] else [])
    ++ (if d.cron.isSome then ["cron"] else [])
    ++ (if d.date.isSome then ["date"] else [])
    ++ (if d.daily_time.isSome then ["daily_time"] else [])

/-- The configuration error raised when the presence check fails. -/
def exactlyOneMsg : String :=
  "exactly one of \x7b\x27interval\x27,\x27cron\x27,\x27date\x27,\x27daily_time\x27\x7d must be provided"

/-- `_build_trigger(trig_def, tz)` on a trigger spec dict. -/
def buildTrigger (d : TrigDef) (tz : Option String) : Except String Trigger :=
  let defaultTz := resolveTz tz none
  if (presentKinds d).length ≠ 1 then .error exactlyOneMsg
  else
    match d.interval, d.cron, d.date, d.daily_time with
    | some iv, none, none, none => buildInterval iv defaultTz
    | none, some cs, none, none => buildCron cs defaultTz
    | none, none, some ds, none => buildDate ds defaultTz
    | none, none, none, some dt => buildDailyTime dt defaultTz
    | _, _, _, _ => .error "unsupported trigger kind"

/-- Wall-clock firing instants per applicable day: a fixed-field cron rule
fires at `(hour, minute, second)` exactly; an `OrTrigger` fires whenever
any constituent fires. Non-cron trigger shapes have no fixed wall-clock
pattern and map to `false`. -/
def Trigger.firesDaily : Trigger → Nat × Nat × Nat → Bool
  | .cron r, w => decide (w = (r.hour, r.minute, r.second))
  | .orElse rs, w => rs.any (fun r => decide (w = (r.hour, r.minute, r.second)))
  | _, _ => false

end Sched

namespace CareerWatch

section StripLemmas

variable {p : Char → Bool}

theorem dropWhile_head_clean : ∀ {l a as}, List.dropWhile p l = a :: as → p a = false := by
  intro l
  induction l with
  | nil => intro a as h; simp [List.dropWhile] at h
  | cons x xs ih =>
      intro a as h
      by_cases hx : p x
      · rw [List.dropWhile_cons_of_pos hx] at h; exact ih h
      · rw [List.dropWhile_cons_of_neg hx] at h
        cases h; simpa using hx

theorem dropWhile_idem : ∀ l, List.dropWhile p (List.dropWhile p l) = List.dropWhile p l := by
  intro l
  cases h : List.dropWhile p l with
  | nil => simp
  | cons a as =>
      have ha := dropWhile_head_clean (p := p) h
      rw [List.dropWhile_cons_of_neg (by simp [ha])]

theorem dropWhile_append_clean (a : Char) (ha : p a = false) :
    ∀ xs, List.dropWhile p (xs ++ [a]) = List.dropWhile p xs ++ [a] := by
  intro xs
  induction xs with
  | nil => simp [List.dropWhile, ha]
  | cons x xs ih =>
      by_cases hx : p x
      · simp [List.dropWhile_cons_of_pos hx, ih]
      · simp [List.dropWhile_cons_of_neg hx]

end StripLemmas

theorem stripR_idem (l : List Char) : stripR (stripR l) = stripR l := by
  simp [stripR, dropWhile_idem]

theorem stripR_cons_clean (a : Char) (as : List Char) (ha : pySpace a = false) :
    stripR (a :: as) = a :: stripR as := by
  simp only [stripR, List.reverse_cons]
  rw [dropWhile_append_clean a ha, List.reverse_append]
  simp

theorem pyStripList_idem (l : List Char) : pyStripList (pyStripList l) = pyStripList l := by
  unfold pyStripList
  cases h : stripL l with
  | nil => simp [stripR, stripL, List.dropWhile]
  | cons a as =>
      have ha : pySpace a = false := dropWhile_head_clean (p := pySpace) h
      rw [stripR_cons_clean a as ha]
      have h1 : stripL (a :: stripR as) = a :: stripR as := by
        unfold stripL
        exact @List.dropWhile_cons_of_neg _ pySpace a (stripR as) (by simp [ha])
      rw [h1, ← stripR_cons_clean a as ha, stripR_idem]

theorem pyStrip_idem (s : String) : pyStrip (pyStrip s) = pyStrip s := by
  show String.mk (pyStripList (String.mk (pyStripList s.toList)).toList) = _
  rw [show (String.mk (pyStripList s.toList)).toList = pyStripList s.toList from rfl,
    pyStripList_idem]
  rfl

theorem pyKey_emit (person : String) (p : Posting) :
    pyKey person (emit person p) = pyKey person p := by
  unfold emit
  by_cases h : p.person_env ≠ pyStrip person
  · simp only [if_pos h]
    unfold pyKey normPosting
    simp [pyStrip_idem]
  · simp [if_neg h]

theorem emit_person_env (person : String) (p : Posting) :
    (emit person p).person_env = pyStrip person := by
  unfold emit
  by_cases h : p.person_env ≠ pyStrip person
  · simp [if_pos h, normPosting]
  · simp only [if_neg h]
    exact not_not.mp h

theorem filterNewGo_store_mono (person : String) (k : Key) :
    ∀ (ps : List Posting) (st : List Key), k ∈ st → k ∈ (filterNewGo person st ps).2 := by
  intro ps
  induction ps with
  | nil => intro st h; simpa [filterNewGo] using h
  | cons p ps ih =>
      intro st h
      unfold filterNewGo
      by_cases hk : pyKey person p ∈ st
      · simp only [if_pos hk]; exact ih st h
      · simp only [if_neg hk]
        exact ih (st ++ [pyKey person p]) (by simp [h])

theorem filterNewGo_key_mem (person : String) :
    ∀ (ps : List Posting) (st : List Key) (p : Posting), p ∈ ps →
      pyKey person p ∈ (filterNewGo person st ps).2 := by
  intro ps
  induction ps with
  | nil => intro st p h; cases h
  | cons q qs ih =>
      intro st p h
      unfold filterNewGo
      by_cases hk : pyKey person q ∈ st
      · simp only [if_pos hk]
        rcases List.mem_cons.mp h with rfl | hmem
        · exact filterNewGo_store_mono person _ qs st hk
        · exact ih st p hmem
      · simp only [if_neg hk]
        rcases List.mem_cons.mp h with rfl | hmem
        · exact filterNewGo_store_mono person _ qs _ (by simp)
        · exact ih _ p hmem

theorem filterNewGo_all_seen (person : String) :
    ∀ (ps : List Posting) (st : List Key),
      (∀ p ∈ ps, pyKey person p ∈ st) → filterNewGo person st ps = ([], st) := by
  intro ps
  induction ps with
  | nil => intro st _; rfl
  | cons p ps ih =>
      intro st h
      unfold filterNewGo
      have hp : pyKey person p ∈ st := h p (by simp)
      simp only [if_pos hp]
      exact ih st (fun q hq => h q (by simp [hq]))

/-- Key-level characterization of the output of `filter_new`'s loop: a key
is reported NEW exactly when it is absent from the table at call time and
some input posting carries it. -/
theorem filterNewGo_out_keys (person : String) :
    ∀ (ps : List Posting) (st : List Key) (k : Key),
      (∃ q ∈ (filterNewGo person st ps).1, pyKey person q = k) ↔
        (k ∉ st ∧ ∃ p ∈ ps, pyKey person p = k) := by
  intro ps
  induction ps with
  | nil =>
      intro st k
      simp [filterNewGo]
  | cons p ps ih =>
      intro st k
      unfold filterNewGo
      by_cases hk : pyKey person p ∈ st
      · simp only [if_pos hk]
        rw [ih st k]
        constructor
        · rintro ⟨hns, q, hq, rfl⟩
          exact ⟨hns, q, by simp [hq], rfl⟩
        · rintro ⟨hns, q, hq, rfl⟩
          rcases List.mem_cons.mp hq with rfl | hmem
          · exact absurd hk hns
          · exact ⟨hns, q, hmem, rfl⟩
      · simp only [if_neg hk]
        constructor
        · rintro ⟨q, hq, rfl⟩
          rcases List.mem_cons.mp hq with rfl | hmem
          · rw [pyKey_emit]
            exact ⟨hk, p, by simp, rfl⟩
          · have := (ih (st ++ [pyKey person p]) (pyKey person q)).mp ⟨q, hmem, rfl⟩
            rcases this with ⟨hns, r, hr, hkey⟩
            refine ⟨fun hc => hns (by simp [hc]), r, by simp [hr], hkey⟩
        · rintro ⟨hns, q, hq, rfl⟩
          rcases List.mem_cons.mp hq with rfl | hmem
          · exact ⟨emit person q, by simp, pyKey_emit person q⟩
          · by_cases hsame : pyKey person q = pyKey person p
            · refine ⟨emit person p, by simp, ?_⟩
              rw [pyKey_emit, hsame]
            · have := (ih (st ++ [pyKey person p]) (pyKey person q)).mpr
                ⟨by simp [hns, hsame], q, hmem, rfl⟩
              rcases this with ⟨r, hr, hkey⟩
              exact ⟨r, by simp [hr], hkey⟩

/-- Every element of the NEW list is the emitted form of some input posting. -/
theorem filterNewGo_out_emit (person : String) :
    ∀ (ps : List Posting) (st : List Key) (q : Posting),
      q ∈ (filterNewGo person st ps).1 → ∃ p ∈ ps, q = emit person p := by
  intro ps
  induction ps with
  | nil => intro st q h; simp [filterNewGo] at h
  | cons p ps ih =>
      intro st q h
      unfold filterNewGo at h
      by_cases hk : pyKey person p ∈ st
      · simp only [if_pos hk] at h
        rcases ih st q h with ⟨r, hr, rfl⟩
        exact ⟨r, by simp [hr], rfl⟩
      · simp only [if_neg hk] at h
        rcases List.mem_cons.mp h with rfl | hmem
        · exact ⟨p, by simp, rfl⟩
        · rcases ih _ q hmem with ⟨r, hr, rfl⟩
          exact ⟨r, by simp [hr], rfl⟩

/-- C4: the dedup store is idempotent under repeated identical batches —
the second identical call to `filter_new` returns no new postings and
leaves the table exactly as the first call left it (so every later
identical call does too), while the first call reports only postings whose
key was absent from the table. -/
theorem filter_new_idempotent (store : List Key) (person : String) (ps : List Posting) :
    (filterNew (filterNew store person ps).2 person ps).1 = [] ∧
    (filterNew (filterNew store person ps).2 person ps).2 = (filterNew store person ps).2 ∧
    (∀ q ∈ (filterNew store person ps).1, pyKey person q ∉ store) := by
  unfold filterNew
  have hall : ∀ p ∈ ps, pyKey person p ∈ (filterNewGo person store ps).2 :=
    fun p hp => filterNewGo_key_mem person ps store p hp
  have h2 := filterNewGo_all_seen person ps (filterNewGo person store ps).2 hall
  refine ⟨?_, ?_, ?_⟩
  · rw [h2]
  · rw [h2]
  · intro q hq
    exact ((filterNewGo_out_keys person ps store (pyKey person q)).mp ⟨q, hq, rfl⟩).1

/-- Witness for C4 at a concrete batch: the second identical call returns
`[]` and does not change the table. -/
theorem filter_new_idempotent_witness :
    (filterNew (filterNew [] "P" [⟨"s", "P", "t", "u"⟩]).2 "P" [⟨"s", "P", "t", "u"⟩]).1 = [] ∧
    (filterNew (filterNew [] "P" [⟨"s", "P", "t", "u"⟩]).2 "P" [⟨"s", "P", "t", "u"⟩]).2 =
      (filterNew [] "P" [⟨"s", "P", "t", "u"⟩]).2 :=
  ⟨(filter_new_idempotent [] "P" [⟨"s", "P", "t", "u"⟩]).1,
   (filter_new_idempotent [] "P" [⟨"s", "P", "t", "u"⟩]).2.1⟩

/-- C6: a candidate posting whose trimmed `(source, person, title, url)`
key matches an existing row is excluded from the returned NEW list, and a
key appears in the NEW list exactly when its insert was not a no-op (the
key was absent from the table when the call began). -/
theorem filter_new_trimmed_key_dedupe (store : List Key) (person : String)
    (ps : List Posting) :
    (∀ p ∈ ps, pyKey person p ∈ store → p ∉ (filterNew store person ps).1) ∧
    (∀ k : Key, (∃ q ∈ (filterNew store person ps).1, pyKey person q = k) ↔
      (k ∉ store ∧ ∃ p ∈ ps, pyKey person p = k)) := by
  have hiff := filterNewGo_out_keys person ps store
  refine ⟨?_, hiff⟩
  intro p hp hkey hmem
  exact ((hiff (pyKey person p)).mp ⟨p, hmem, rfl⟩).1 hkey

/-- Witness for C6: a posting that matches an existing row only after
whitespace trimming is not reported new. -/
theorem filter_new_trimmed_key_dedupe_witness :
    (⟨" s ", "P", "t", "u "⟩ : Posting) ∉
      (filterNew [("s", "P", "t", "u")] "P" [⟨" s ", "P", "t", "u "⟩]).1 :=
  (filter_new_trimmed_key_dedupe [("s", "P", "t", "u")] "P"
      [⟨" s ", "P", "t", "u "⟩]).1
    ⟨" s ", "P", "t", "u "⟩ (by decide) (by decide)

/-- C9 (implicit): the person component of the dedupe key is the trimmed
`person_env` argument of the call, never the posting's own field; every
returned posting carries the trimmed argument as its `person_env`; a new
posting whose `person_env` differs from the trimmed argument comes back as
the normalized copy (source, title, url trimmed too); and two postings
differing only in `person_env` collide on the same key within one run, so
only the first is reported. -/
theorem filter_new_person_from_argument (store : List Key) (person : String)
    (ps : List Posting) (p p₁ p₂ : Posting) :
    ((pyKey person p).2.1 = pyStrip person) ∧
    (∀ q ∈ (filterNew store person ps).1, q.person_env = pyStrip person) ∧
    (p.person_env ≠ pyStrip person → pyKey person p ∉ store →
      (filterNew store person [p]).1 = [normPosting person p]) ∧
    (p₁.source = p₂.source → p₁.title = p₂.title → p₁.url = p₂.url →
      pyKey person p₁ = pyKey person p₂) ∧
    (p₁.source = p₂.source → p₁.title = p₂.title → p₁.url = p₂.url →
      pyKey person p₁ ∉ store →
      (filterNew store person [p₁, p₂]).1 = [emit person p₁]) := by
  have hkey12 : p₁.source = p₂.source → p₁.title = p₂.title → p₁.url = p₂.url →
      pyKey person p₁ = pyKey person p₂ := by
    intro h1 h2 h3
    unfold pyKey
    rw [h1, h2, h3]
  refine ⟨rfl, ?_, ?_, hkey12, ?_⟩
  · intro q hq
    rcases filterNewGo_out_emit person ps store q hq with ⟨r, _, rfl⟩
    exact emit_person_env person r
  · intro hdiff hnot
    show (filterNewGo person store [p]).1 = _
    unfold filterNewGo
    simp only [if_neg hnot]
    show [emit person p] = _
    unfold emit
    rw [if_pos hdiff]
  · intro h1 h2 h3 hnot
    show (filterNewGo person store [p₁, p₂]).1 = _
    unfold filterNewGo
    simp only [if_neg hnot]
    have hk2 : pyKey person p₂ ∈ store ++ [pyKey person p₁] := by
      rw [← hkey12 h1 h2 h3]
      simp
    unfold filterNewGo
    simp only [if_pos hk2]
    rfl

/-- Witness for C9: with person argument `" P "`, a posting whose
`person_env` is `"Q"` comes back normalized to `"P"`, and a duplicate
differing only in `person_env` is suppressed within the same run. -/
theorem filter_new_person_from_argument_witness :
    ((filterNew [] " P " [⟨" s ", "Q", "t", "u"⟩]).1 =
      [normPosting " P " ⟨" s ", "Q", "t", "u"⟩]) ∧
    ((filterNew [] " P " [⟨"s", "Q", "t", "u"⟩, ⟨"s", "R", "t", "u"⟩]).1 =
      [emit " P " ⟨"s", "Q", "t", "u"⟩]) :=
  ⟨(filter_new_person_from_argument [] " P " [] ⟨" s ", "Q", "t", "u"⟩
        ⟨" s ", "Q", "t", "u"⟩ ⟨" s ", "Q", "t", "u"⟩).2.2.1
      (by decide) (by decide),
   (filter_new_person_from_argument [] " P " [] ⟨"s", "Q", "t", "u"⟩
        ⟨"s", "Q", "t", "u"⟩ ⟨"s", "R", "t", "u"⟩).2.2.2.2
      rfl rfl rfl (by decide)⟩

end CareerWatch

namespace CareerWatch

theorem kindStep_skip (s : Settings) (f : Oracle) (h : s.skip_network = true)
    (acc : List ScrapeResult × List (String × String))
    (kv : String × List ScraperConfig) : kindStep s f acc kv = acc := by
  simp [kindStep, runKind, h]

theorem collectKinds_skip (s : Settings) (f : Oracle) (h : s.skip_network = true) :
    collectKinds s f = ([], []) := by
  unfold collectKinds
  have hgen : ∀ (l : List (String × List ScraperConfig))
      (acc : List ScrapeResult × List (String × String)),
      l.foldl (kindStep s f) acc = acc := by
    intro l
    induction l with
    | nil => intro acc; rfl
    | cons kv t ih =>
        intro acc
        rw [List.foldl_cons, kindStep_skip s f h]
        exact ih acc
  exact hgen _ _

theorem foldl_kindStep_fst (s : Settings) (f : Oracle) :
    ∀ (l : List (String × List ScraperConfig)) (acc1 : List ScrapeResult)
      (e1 e2 : List (String × String)),
      (l.foldl (kindStep s f) (acc1, e1)).1 =
        (l.foldl (kindStep s (errToEmpty f)) (acc1, e2)).1 := by
  intro l
  induction l with
  | nil => intro acc1 e1 e2; rfl
  | cons kv t ih =>
      intro acc1 e1 e2
      rw [List.foldl_cons, List.foldl_cons]
      by_cases hskip : s.skip_network = true
      · simp only [kindStep, runKind, hskip, if_true]
        exact ih _ _ _
      · replace hskip : s.skip_network = false := by
          cases h : s.skip_network
          · rfl
          · exact absurd h hskip
        cases hr : f kv.1 kv.2 with
        | ok rs =>
            simp only [kindStep, runKind, hskip, Bool.false_eq_true, if_false,
              errToEmpty, hr]
            exact ih _ _ _
        | error e =>
            simp only [kindStep, runKind, hskip, Bool.false_eq_true, if_false,
              errToEmpty, hr, List.append_nil]
            exact ih _ _ _

theorem collectKinds_fst_errToEmpty (s : Settings) (f : Oracle) :
    (collectKinds s f).1 = (collectKinds s (errToEmpty f)).1 :=
  foldl_kindStep_fst s f (groupByKind s.selected) [] [] []

theorem foldl_kindStep_err_mono (s : Settings) (f : Oracle) :
    ∀ (l : List (String × List ScraperConfig))
      (acc : List ScrapeResult × List (String × String))
      (x : String × String), x ∈ acc.2 → x ∈ (l.foldl (kindStep s f) acc).2 := by
  intro l
  induction l with
  | nil => intro acc x h; exact h
  | cons kv t ih =>
      intro acc x h
      rw [List.foldl_cons]
      refine ih _ x ?_
      unfold kindStep
      cases runKind s f kv.1 kv.2 with
      | ok rs => exact h
      | error e => simp [h]

theorem foldl_kindStep_err_mem (s : Settings) (f : Oracle)
    (hskip : s.skip_network = false) :
    ∀ (l : List (String × List ScraperConfig))
      (acc : List ScrapeResult × List (String × String))
      (k : String) (specs : List ScraperConfig) (e : String),
      (k, specs) ∈ l → f k specs = .error e →
      (k, e) ∈ (l.foldl (kindStep s f) acc).2 := by
  intro l
  induction l with
  | nil => intro acc k specs e h; cases h
  | cons kv t ih =>
      intro acc k specs e hmem herr
      rw [List.foldl_cons]
      rcases List.mem_cons.mp hmem with heq | hmem2
      · subst heq
        refine foldl_kindStep_err_mono s f t _ (k, e) ?_
        simp [kindStep, runKind, hskip, herr]
      · exact ih _ k specs e hmem2 herr

theorem runOnceCore_errors (s : Settings) (results : List ScrapeResult)
    (errLogs : List (String × String)) (store : List Key) :
    (runOnceCore s results errLogs store).errors = errLogs := by
  unfold runOnceCore
  by_cases hi : s.ingest_only_no_email = true
  · simp [hi]
  · by_cases he : s.email_all_even_if_seen = true
    · simp [hi, he]
    · by_cases hn :
        (newBySourceOf (filterNew store s.person_env (allItems results)).1).isEmpty
      · simp [hi, he, hn]
      · simp [hi, he, hn]

theorem runOnceCore_indep_errLogs (s : Settings) (results : List ScrapeResult)
    (e1 e2 : List (String × String)) (store : List Key) :
    (runOnceCore s results e1 store).email = (runOnceCore s results e2 store).email ∧
    (runOnceCore s results e1 store).store = (runOnceCore s results e2 store).store := by
  unfold runOnceCore
  by_cases hi : s.ingest_only_no_email = true
  · simp [hi]
  · by_cases he : s.email_all_even_if_seen = true
    · simp [hi, he]
    · by_cases hn :
        (newBySourceOf (filterNew store s.person_env (allItems results)).1).isEmpty
      · simp [hi, he, hn]
      · simp [hi, he, hn]

end CareerWatch

namespace CareerWatch

/-- C2 counterexample: with `skip_network=True`, `email_all_even_if_seen=True`
and `ingest_only_no_email=False`, zero postings are found and yet `run_once`
returns a rendered `(html, meta)` pair — not `None` as the claim states. -/
theorem run_once_skip_email_all_counterexample :
    allItems (collectKinds ⟨"P", [⟨"stub", "src"⟩], true, true, false⟩
        (fun _ _ => Except.error "boom")).1 = [] ∧
    (runOnce ⟨"P", [⟨"stub", "src"⟩], true, true, false⟩
        (fun _ _ => Except.error "boom") []).email.isSome = true := by
  exact ⟨rfl, rfl⟩

/-- C2 (amended): with `skip_network=True` no scraper oracle is ever
consulted (the outcome is identical for any two oracles) and zero postings
are found; `run_once` then returns `None` in ingest-only mode and in the
default mode, while `email_all_even_if_seen` mode still returns a rendered
`(html, meta)` pair. -/
theorem run_once_skip_network (s : Settings) (f g : Oracle) (store : List Key)
    (h : s.skip_network = true) :
    runOnce s f store = runOnce s g store ∧
    ((s.ingest_only_no_email = true ∨ s.email_all_even_if_seen = false) →
      (runOnce s f store).email = none) ∧
    (s.ingest_only_no_email = false → s.email_all_even_if_seen = true →
      (runOnce s f store).email.isSome = true) := by
  have hf := collectKinds_skip s f h
  have hg := collectKinds_skip s g h
  unfold runOnce
  rw [hf, hg]
  refine ⟨rfl, ?_, ?_⟩
  · intro hflag
    unfold runOnceCore
    rcases hflag with hi | he
    · simp [hi]
    · by_cases hi : s.ingest_only_no_email = true
      · simp [hi]
      · simp [hi, he, allItems, filterNew, filterNewGo, newBySourceOf]
  · intro hi he
    unfold runOnceCore
    simp [hi, he]

/-- Witness for C2's amended statement: a concrete skip-network run is
oracle-independent and returns `None` in the default mode. -/
theorem run_once_skip_network_witness :
    runOnce ⟨"P", [⟨"stub", "src"⟩], true, false, false⟩
        (fun _ _ => Except.error "boom") [] =
      runOnce ⟨"P", [⟨"stub", "src"⟩], true, false, false⟩
        (fun _ _ => Except.ok [⟨"src", [⟨"src", "P", "T", "u"⟩], []⟩]) [] ∧
    (runOnce ⟨"P", [⟨"stub", "src"⟩], true, false, false⟩
        (fun _ _ => Except.error "boom") []).email = none :=
  ⟨(run_once_skip_network ⟨"P", [⟨"stub", "src"⟩], true, false, false⟩
      (fun _ _ => Except.error "boom")
      (fun _ _ => Except.ok [⟨"src", [⟨"src", "P", "T", "u"⟩], []⟩]) [] rfl).1,
   (run_once_skip_network ⟨"P", [⟨"stub", "src"⟩], true, false, false⟩
      (fun _ _ => Except.error "boom")
      (fun _ _ => Except.ok [⟨"src", [⟨"src", "P", "T", "u"⟩], []⟩]) [] rfl).2.1
     (Or.inr rfl)⟩

/-- C3: with `email_all_even_if_seen=True` and `ingest_only_no_email=False`,
`run_once` renders the full pre-dedupe view — it returns `(html, meta)`
whose per-source counts are those of every posting found, seen or not —
whenever at least one posting was found. -/
theorem run_once_email_all_renders (s : Settings) (f : Oracle) (store : List Key)
    (hall : s.email_all_even_if_seen = true) (hing : s.ingest_only_no_email = false)
    (_hfound : allItems (collectKinds s f).1 ≠ []) :
    ∃ html m, (runOnce s f store).email = some (html, m) ∧
      m.by_source =
        (preBySource (collectKinds s f).1).map (fun kv => (kv.1, kv.2.length)) := by
  unfold runOnce runOnceCore
  simp only [hing, hall, Bool.false_eq_true, if_false, if_true]
  exact ⟨_, _, rfl, rfl⟩

/-- Witness for C3: one found-but-seen posting still gets rendered. -/
theorem run_once_email_all_renders_witness :
    ∃ html m,
      (runOnce ⟨"P", [⟨"k", "src"⟩], false, true, false⟩
          (fun _ _ => Except.ok [⟨"src", [⟨"src", "P", "T", "u"⟩], []⟩])
          [("src", "P", "T", "u")]).email = some (html, m) ∧
      m.by_source =
        (preBySource (collectKinds ⟨"P", [⟨"k", "src"⟩], false, true, false⟩
            (fun _ _ => Except.ok [⟨"src", [⟨"src", "P", "T", "u"⟩], []⟩])).1).map
          (fun kv => (kv.1, kv.2.length)) :=
  run_once_email_all_renders ⟨"P", [⟨"k", "src"⟩], false, true, false⟩
    (fun _ _ => Except.ok [⟨"src", [⟨"src", "P", "T", "u"⟩], []⟩])
    [("src", "P", "T", "u")] rfl rfl (by decide)

/-- C5: with `ingest_only_no_email=True`, `run_once` returns no email and
its durable effect is exactly the dedup-store insert of the full unfiltered
posting list. -/
theorem run_once_ingest_only (s : Settings) (f : Oracle) (store : List Key)
    (h : s.ingest_only_no_email = true) :
    (runOnce s f store).email = none ∧
    (runOnce s f store).store =
      (filterNew store s.person_env (allItems (collectKinds s f).1)).2 := by
  unfold runOnce runOnceCore
  simp [h]

/-- Witness for C5: a concrete ingest-only run returns no email and has
inserted the newly-discovered posting's key. -/
theorem run_once_ingest_only_witness :
    (runOnce ⟨"P", [⟨"k", "src"⟩], false, false, true⟩
        (fun _ _ => Except.ok [⟨"src", [⟨"src", "P", "T", "u"⟩], []⟩]) []).email = none ∧
    (runOnce ⟨"P", [⟨"k", "src"⟩], false, false, true⟩
        (fun _ _ => Except.ok [⟨"src", [⟨"src", "P", "T", "u"⟩], []⟩]) []).store =
      (filterNew [] "P"
        (allItems (collectKinds ⟨"P", [⟨"k", "src"⟩], false, false, true⟩
          (fun _ _ => Except.ok [⟨"src", [⟨"src", "P", "T", "u"⟩], []⟩])).1)).2 :=
  run_once_ingest_only ⟨"P", [⟨"k", "src"⟩], false, false, true⟩
    (fun _ _ => Except.ok [⟨"src", [⟨"src", "P", "T", "u"⟩], []⟩]) [] rfl

/-- C8: an exception from one kind's execution is caught at the
orchestration boundary and logged as `(kind, error)`; the run's email
outcome and store update are exactly those of the run in which that kind
returns no results, so `run_once` proceeds through dedup and the normal
outcome decision. -/
theorem run_once_kind_error_isolated (s : Settings) (f : Oracle) (store : List Key)
    (k : String) (specs : List ScraperConfig) (e : String)
    (hmem : (k, specs) ∈ groupByKind s.selected)
    (hskip : s.skip_network = false)
    (herr : f k specs = .error e) :
    (k, e) ∈ (runOnce s f store).errors ∧
    (runOnce s f store).email = (runOnce s (errToEmpty f) store).email ∧
    (runOnce s f store).store = (runOnce s (errToEmpty f) store).store := by
  refine ⟨?_, ?_, ?_⟩
  · show (k, e) ∈ (runOnceCore s _ (collectKinds s f).2 store).errors
    rw [runOnceCore_errors]
    exact foldl_kindStep_err_mem s f hskip (groupByKind s.selected) ([], []) k specs e
      hmem herr
  · show (runOnceCore s (collectKinds s f).1 (collectKinds s f).2 store).email = _
    rw [collectKinds_fst_errToEmpty s f]
    exact (runOnceCore_indep_errLogs s (collectKinds s (errToEmpty f)).1
      (collectKinds s f).2 (collectKinds s (errToEmpty f)).2 store).1
  · show (runOnceCore s (collectKinds s f).1 (collectKinds s f).2 store).store = _
    rw [collectKinds_fst_errToEmpty s f]
    exact (runOnceCore_indep_errLogs s (collectKinds s (errToEmpty f)).1
      (collectKinds s f).2 (collectKinds s (errToEmpty f)).2 store).2

/-- Witness for C8: a concrete run with an erroring kind logs the pair and
matches the empty-result run's outcome. -/
theorem run_once_kind_error_isolated_witness :
    ("k", "boom") ∈ (runOnce ⟨"P", [⟨"k", "src"⟩], false, false, false⟩
        (fun _ _ => Except.error "boom") []).errors ∧
    (runOnce ⟨"P", [⟨"k", "src"⟩], false, false, false⟩
        (fun _ _ => Except.error "boom") []).email =
      (runOnce ⟨"P", [⟨"k", "src"⟩], false, false, false⟩
        (errToEmpty (fun _ _ => Except.error "boom")) []).email :=
  ⟨(run_once_kind_error_isolated ⟨"P", [⟨"k", "src"⟩], false, false, false⟩
      (fun _ _ => Except.error "boom") [] "k" [⟨"k", "src"⟩] "boom"
      (by decide) rfl rfl).1,
   (run_once_kind_error_isolated ⟨"P", [⟨"k", "src"⟩], false, false, false⟩
      (fun _ _ => Except.error "boom") [] "k" [⟨"k", "src"⟩] "boom"
      (by decide) rfl rfl).2.1⟩

/-- C10 (implicit): in `email_all_even_if_seen` mode the subject line and
`meta["new_total"]` come from the newly-inserted postings only; when
nothing is new the returned email still exists but carries subject
`"Career Watch — 0 new jobs (0 companies)"` and `new_total = 0`. -/
theorem run_once_email_all_subject_from_new (s : Settings) (f : Oracle)
    (store : List Key)
    (hall : s.email_all_even_if_seen = true) (hing : s.ingest_only_no_email = false)
    (hnew : (filterNew store s.person_env (allItems (collectKinds s f).1)).1 = []) :
    ∃ html m, (runOnce s f store).email = some (html, m) ∧
      m.new_total = 0 ∧
      m.subject = "Career Watch — 0 new jobs (0 companies)" := by
  unfold runOnce runOnceCore
  simp only [hing, hall, Bool.false_eq_true, if_false, if_true, hnew]
  exact ⟨_, _, rfl, rfl, rfl⟩

/-- Witness for C10: one previously-seen posting, rendered with a zero-new
subject. -/
theorem run_once_email_all_subject_from_new_witness :
    ∃ html m,
      (runOnce ⟨"P", [⟨"k", "src"⟩], false, true, false⟩
          (fun _ _ => Except.ok [⟨"src", [⟨"src", "P", "T", "u"⟩], []⟩])
          [("src", "P", "T", "u")]).email = some (html, m) ∧
      m.new_total = 0 ∧
      m.subject = "Career Watch — 0 new jobs (0 companies)" :=
  run_once_email_all_subject_from_new ⟨"P", [⟨"k", "src"⟩], false, true, false⟩
    (fun _ _ => Except.ok [⟨"src", [⟨"src", "P", "T", "u"⟩], []⟩])
    [("src", "P", "T", "u")] rfl rfl (by decide)

end CareerWatch

namespace Sched

/-- C7: a trigger spec dict in which the number of present, non-None kinds
among `{interval, cron, date, daily_time}` is not exactly one fails to
compile, with the configuration error raised before any payload is read. -/
theorem build_trigger_exactly_one (d : TrigDef) (tz : Option String)
    (h : (presentKinds d).length ≠ 1) :
    buildTrigger d tz = .error exactlyOneMsg := by
  unfold buildTrigger
  simp [h]

/-- Witness for C7: the empty trigger dict (zero kinds present) errors. -/
theorem build_trigger_exactly_one_witness :
    (presentKinds ({} : TrigDef)).length ≠ 1 ∧
    buildTrigger ({} : TrigDef) (some "UTC") = .error exactlyOneMsg :=
  ⟨by decide, build_trigger_exactly_one {} (some "UTC") (by decide)⟩

theorem mapO_all_some {α β : Type} (f : α → Option β) :
    ∀ (l : List α), (∀ a ∈ l, (f a).isSome) → ∃ out, mapO f l = some out := by
  intro l
  induction l with
  | nil => intro _; exact ⟨[], rfl⟩
  | cons a as ih =>
      intro h
      obtain ⟨b, hb⟩ := Option.isSome_iff_exists.mp (h a (by simp))
      obtain ⟨out, hout⟩ := ih (fun x hx => h x (by simp [hx]))
      exact ⟨b :: out, by simp [mapO, hb, hout]⟩

theorem mapO_mem_iff {α β : Type} (f : α → Option β) :
    ∀ (l : List α) (out : List β), mapO f l = some out →
      ∀ b, (b ∈ out ↔ ∃ a ∈ l, f a = some b) := by
  intro l
  induction l with
  | nil =>
      intro out h b
      simp only [mapO, Option.some.injEq] at h
      subst h
      simp
  | cons a as ih =>
      intro out h b
      unfold mapO at h
      cases hfa : f a with
      | none => rw [hfa] at h; simp at h
      | some v =>
          rw [hfa] at h
          cases hrec : mapO f as with
          | none => rw [hrec] at h; simp at h
          | some vs =>
              rw [hrec] at h
              simp only [Option.some.injEq] at h
              subst h
              constructor
              · intro hb
                rcases List.mem_cons.mp hb with rfl | hmem
                · exact ⟨a, by simp, hfa⟩
                · rcases (ih vs hrec b).mp hmem with ⟨x, hx, hfx⟩
                  exact ⟨x, by simp [hx], hfx⟩
              · rintro ⟨x, hx, hfx⟩
                rcases List.mem_cons.mp hx with rfl | hmem
                · rw [hfa] at hfx
                  cases hfx
                  simp
                · exact List.mem_cons.mpr
                    (Or.inr ((ih vs hrec b).mpr ⟨x, hmem, hfx⟩))

theorem dailyRule_hms (dow tzv : Option String) (t : Nat × Nat × Nat) :
    ((dailyRule dow tzv t).hour, (dailyRule dow tzv t).minute,
      (dailyRule dow tzv t).second) = t := by
  obtain ⟨a, b, c⟩ := t
  rfl

theorem firesDaily_cron_rule (dow tzv : Option String) (t : Nat × Nat × Nat)
    (w : Nat × Nat × Nat) :
    (Trigger.cron (dailyRule dow tzv t)).firesDaily w = true ↔ w = t := by
  show decide (w = ((dailyRule dow tzv t).hour, (dailyRule dow tzv t).minute,
    (dailyRule dow tzv t).second)) = true ↔ _
  rw [dailyRule_hms]
  exact decide_eq_true_iff

theorem firesDaily_orElse_map (dow tzv : Option String)
    (L : List (Nat × Nat × Nat)) (w : Nat × Nat × Nat) :
    (Trigger.orElse (L.map (dailyRule dow tzv))).firesDaily w = true ↔ w ∈ L := by
  show (L.map (dailyRule dow tzv)).any
      (fun r => decide (w = (r.hour, r.minute, r.second))) = true ↔ _
  rw [List.any_eq_true]
  constructor
  · rintro ⟨r, hr, hd⟩
    rcases List.mem_map.mp hr with ⟨t, ht, rfl⟩
    have hw : w = ((dailyRule dow tzv t).hour, (dailyRule dow tzv t).minute,
        (dailyRule dow tzv t).second) := of_decide_eq_true hd
    rw [dailyRule_hms] at hw
    exact hw ▸ ht
  · intro hw
    refine ⟨dailyRule dow tzv w, List.mem_map_of_mem _ hw, ?_⟩
    show decide (w = ((dailyRule dow tzv w).hour, (dailyRule dow tzv w).minute,
      (dailyRule dow tzv w).second)) = true
    rw [dailyRule_hms]
    exact decide_eq_true rfl

end Sched

namespace Sched

/-- C1: for a `daily_time` spec whose entries are valid `HH:MM[:SS]`
strings, `_build_trigger` parses each entry to a discrete
`(hour, minute, second)` triple, deduplicates them as a set, sorts them
ascending, builds one fixed-field cron rule per distinct triple (a single
rule when exactly one triple results, an OR-combination otherwise), and the
compiled trigger fires at exactly the listed wall-clock instants per
applicable day — never at a cross-produced hour/minute/second combination. -/
theorem daily_time_discrete_rules (dt : DailyTimeSpec) (tz : Option String)
    (tf : TimeField)
    (hx : dt.extraKeys = [])
    (ht : dt.time = some tf)
    (hvalid : ∀ e ∈ tf.toList, (parseTimeStr e).isSome) :
    ∃ trig L,
      buildTrigger { daily_time := some dt } tz = .ok trig ∧
      List.Pairwise (fun a b => TripLe a b ∧ a ≠ b) L ∧
      (∀ w, w ∈ L ↔ ∃ e ∈ tf.toList, parseTimeStr e = some w) ∧
      (match L with
        | [t] => trig = .cron (dailyRule dt.day_of_week
            (resolveTz dt.timezone (resolveTz tz none)) t)
        | _ => trig = .orElse (L.map (dailyRule dt.day_of_week
            (resolveTz dt.timezone (resolveTz tz none))))) ∧
      (∀ w, trig.firesDaily w = true ↔ w ∈ L) := by
  obtain ⟨triples, htr⟩ := mapO_all_some parseTimeStr tf.toList hvalid
  have hmem0 : ∀ w, w ∈ sortTrips triples.dedup ↔
      ∃ e ∈ tf.toList, parseTimeStr e = some w := by
    intro w
    unfold sortTrips
    rw [(List.perm_insertionSort TripLe triples.dedup).mem_iff, List.mem_dedup]
    exact mapO_mem_iff parseTimeStr tf.toList triples htr w
  have hpair0 : List.Pairwise (fun a b => TripLe a b ∧ a ≠ b)
      (sortTrips triples.dedup) := by
    have hs : List.Pairwise TripLe (sortTrips triples.dedup) :=
      List.sorted_insertionSort TripLe triples.dedup
    have hn : (sortTrips triples.dedup).Nodup :=
      ((List.perm_insertionSort TripLe triples.dedup).nodup_iff).mpr
        (List.nodup_dedup triples)
    exact hs.and hn
  have key : buildTrigger { daily_time := some dt } tz =
      (match (sortTrips triples.dedup).map
          (dailyRule dt.day_of_week (resolveTz dt.timezone (resolveTz tz none))) with
       | [r] => Except.ok (Trigger.cron r)
       | rs => Except.ok (Trigger.orElse rs)) := by
    have hbt : buildTrigger { daily_time := some dt } tz =
        buildDailyTime dt (resolveTz tz none) := rfl
    rw [hbt]
    unfold buildDailyTime
    rw [if_neg (by simp [hx]), ht]
    simp only [htr]
  generalize hLg : sortTrips triples.dedup = L at hmem0 hpair0 key
  cases L with
  | nil =>
      refine ⟨Trigger.orElse [], [], ?_, hpair0, hmem0, ?_, ?_⟩
      · rw [key]
        rfl
      · rfl
      · intro w
        simpa using firesDaily_orElse_map dt.day_of_week
          (resolveTz dt.timezone (resolveTz tz none)) [] w
  | cons t rest =>
      cases rest with
      | nil =>
          refine ⟨Trigger.cron (dailyRule dt.day_of_week
              (resolveTz dt.timezone (resolveTz tz none)) t), [t],
            ?_, hpair0, hmem0, ?_, ?_⟩
          · rw [key]
            rfl
          · rfl
          · intro w
            rw [firesDaily_cron_rule]
            simp
      | cons t2 rest2 =>
          refine ⟨Trigger.orElse ((t :: t2 :: rest2).map (dailyRule dt.day_of_week
              (resolveTz dt.timezone (resolveTz tz none)))), t :: t2 :: rest2,
            ?_, hpair0, hmem0, ?_, ?_⟩
          · rw [key]
            rfl
          · rfl
          · intro w
            exact firesDaily_orElse_map dt.day_of_week
              (resolveTz dt.timezone (resolveTz tz none)) (t :: t2 :: rest2) w

/-- Witness for C1: three valid times, one duplicated, out of order. -/
theorem daily_time_discrete_rules_witness :
    ∃ trig L,
      buildTrigger
          { daily_time := some
              { time := some (TimeField.many ["06:30", "05:00", "06:30"])
                day_of_week := some "mon-sat" } }
          (some "UTC") = .ok trig ∧
      List.Pairwise (fun a b => TripLe a b ∧ a ≠ b) L ∧
      (∀ w, w ∈ L ↔ ∃ e ∈ (TimeField.many ["06:30", "05:00", "06:30"]).toList,
          parseTimeStr e = some w) ∧
      (match L with
        | [t] => trig = .cron (dailyRule (some "mon-sat")
            (resolveTz none (resolveTz (some "UTC") none)) t)
        | _ => trig = .orElse (L.map (dailyRule (some "mon-sat")
            (resolveTz none (resolveTz (some "UTC") none))))) ∧
      (∀ w, trig.firesDaily w = true ↔ w ∈ L) :=
  daily_time_discrete_rules
    { time := some (TimeField.many ["06:30", "05:00", "06:30"])
      day_of_week := some "mon-sat" }
    (some "UTC") (TimeField.many ["06:30", "05:00", "06:30"]) rfl rfl (by decide)

end Sched
